import Mathlib

/-!
Shallow embedding of the MCP connection-pool simulator
(`MCPServerSimulator` / `MCPConnectionPoolManager`).

Modelling conventions:
* JavaScript numbers are modelled as `ℚ` (for rates/latencies) or `ℕ`/`ℤ`
  (for the integer-valued counters and timestamps the code produces).
* Every `Math.random()` draw consumed by an operation is passed in as an
  explicit `ℚ` parameter; well-formedness (`0 ≤ r < 1`) is a hypothesis.
* `Date.now()` is passed in as an explicit `now : ℤ` parameter; the several
  `Date.now()` calls inside one synchronous run are modelled by one value.
* The randomly generated log-entry identifier
  (`log_<now>_<base36 suffix>`) is abstracted as a `String` parameter.
* JSON values are a first-order inductive `Json`; `JSON.parse` (a platform
  builtin, not repository code) is abstracted: `importConfigurations` takes
  the parse outcome as `Except String Json`, where `.error e` stands for an
  input string that is not valid JSON and `e` for the parser's message, and
  `JSON.stringify ∘ JSON.parse` is treated as the identity on `Json` values.
* An `async` method is modelled by the state transformation it has performed
  once its promise resolves.
-/

/-- JSON values (the dynamic values flowing through the untyped config
paths of the code). -/
inductive Json where
  | null : Json
  | bool (b : Bool) : Json
  | num (q : ℚ) : Json
  | str (s : String) : Json
  | arr (elems : List Json) : Json
  | obj (fields : List (String × Json)) : Json

mutual

/-- Decidable structural equality on `Json` values.  (JS `Map` compares
object keys by reference; no verified claim uses a non-primitive server id,
so structural equality faithfully models the key comparisons that occur.) -/
def Json.decEq : (a b : Json) → Decidable (a = b)
  | .null, .null => isTrue rfl
  | .bool a, .bool b =>
      if h : a = b then isTrue (by rw [h])
      else isFalse (fun hh => h (Json.bool.inj hh))
  | .num a, .num b =>
      if h : a = b then isTrue (by rw [h])
      else isFalse (fun hh => h (Json.num.inj hh))
  | .str a, .str b =>
      if h : a = b then isTrue (by rw [h])
      else isFalse (fun hh => h (Json.str.inj hh))
  | .arr xs, .arr ys =>
      match Json.decEqList xs ys with
      | isTrue h => isTrue (by rw [h])
      | isFalse h => isFalse (fun hh => h (Json.arr.inj hh))
  | .obj fs, .obj gs =>
      match Json.decEqFields fs gs with
      | isTrue h => isTrue (by rw [h])
      | isFalse h => isFalse (fun hh => h (Json.obj.inj hh))
  | .null, .bool _ | .null, .num _ | .null, .str _ | .null, .arr _
  | .null, .obj _ | .bool _, .null | .bool _, .num _ | .bool _, .str _
  | .bool _, .arr _ | .bool _, .obj _ | .num _, .null | .num _, .bool _
  | .num _, .str _ | .num _, .arr _ | .num _, .obj _ | .str _, .null
  | .str _, .bool _ | .str _, .num _ | .str _, .arr _ | .str _, .obj _
  | .arr _, .null | .arr _, .bool _ | .arr _, .num _ | .arr _, .str _
  | .arr _, .obj _ | .obj _, .null | .obj _, .bool _ | .obj _, .num _
  | .obj _, .str _ | .obj _, .arr _ => isFalse (fun hh => Json.noConfusion hh)

/-- Decidable elementwise equality on `Json` lists. -/
def Json.decEqList : (xs ys : List Json) → Decidable (xs = ys)
  | [], [] => isTrue rfl
  | [], _ :: _ => isFalse (fun h => List.noConfusion h)
  | _ :: _, [] => isFalse (fun h => List.noConfusion h)
  | x :: xs, y :: ys =>
      match Json.decEq x y, Json.decEqList xs ys with
      | isTrue h1, isTrue h2 => isTrue (by rw [h1, h2])
      | isFalse h1, _ => isFalse (fun h => h1 (List.cons.inj h).1)
      | isTrue _, isFalse h2 => isFalse (fun h => h2 (List.cons.inj h).2)

/-- Decidable elementwise equality on `Json` field lists. -/
def Json.decEqFields :
    (fs gs : List (String × Json)) → Decidable (fs = gs)
  | [], [] => isTrue rfl
  | [], _ :: _ => isFalse (fun h => List.noConfusion h)
  | _ :: _, [] => isFalse (fun h => List.noConfusion h)
  | (k, v) :: fs, (k2, v2) :: gs =>
      match String.decEq k k2, Json.decEq v v2, Json.decEqFields fs gs with
      | isTrue h1, isTrue h2, isTrue h3 => isTrue (by rw [h1, h2, h3])
      | isFalse h1, _, _ =>
          isFalse (fun h => h1 (congrArg Prod.fst (List.cons.inj h).1))
      | isTrue _, isFalse h2, _ =>
          isFalse (fun h => h2 (congrArg Prod.snd (List.cons.inj h).1))
      | isTrue _, isTrue _, isFalse h3 =>
          isFalse (fun h => h3 (List.cons.inj h).2)

end

instance : DecidableEq Json := Json.decEq

/-- Property access `v.k` on a dynamic value: `some` the field value for an
object that has the field, `none` (JS `undefined`) otherwise.  (Access on
`null` throws in JS; callers that can receive `null` handle it separately.) -/
def getField (v : Json) (k : String) : Option Json :=
  match v with
  | .obj fields => (fields.find? (fun f => f.1 = k)).map (fun f => f.2)
  | _ => none

/-- JS truthiness of a defined value. -/
def jsTruthyV : Json → Bool
  | .null => false
  | .bool b => b
  | .num q => q ≠ 0
  | .str s => s ≠ ""
  | .arr _ => true
  | .obj _ => true

/-- JS truthiness of a possibly-`undefined` value. -/
def jsTruthy : Option Json → Bool
  | none => false
  | some v => jsTruthyV v

/-- String interpolation `${v}` of a possibly-`undefined` dynamic value.
(Number formatting is abstracted to the canonical rational rendering; no
verified claim depends on a number appearing inside a message.) -/
def jsToStr : Option Json → String
  | none => "undefined"
  | some .null => "null"
  | some (.bool b) => if b then ("true") else ("false")
  | some (.num q) => toString q
  | some (.str s) => s
  | some (.arr _) => "[array]"
  | some (.obj _) => "[object Object]"

/-- Source `MCPServerMetrics` (src/unnamed/part_007, lines 1-9). -/
structure MCPServerMetrics where
  requestsPerSecond : ℚ
  averageLatency : ℚ
  errorRate : ℚ
  totalRequests : ℕ
  totalErrors : ℕ
  uptime : ℤ
  lastRequestTime : ℤ
deriving DecidableEq

/-- Log levels of `MCPServerLog`. -/
inductive LogLevel where
  | info | warn | error | debug
deriving DecidableEq

/-- Source `MCPServerLog` (lines 11-17).  All `addLog` call sites in the file omit
`details`, so it is always `none` here. -/
structure MCPServerLog where
  id : String
  timestamp : ℤ
  level : LogLevel
  message : String
  details : Option Json := none
deriving DecidableEq

/-- The `connectionPool` record of `MCPServerStatus` (lines 26-30). -/
structure ConnectionPool where
  active : ℕ
  idle : ℕ
  total : ℕ
deriving DecidableEq

/-- The four lifecycle states (line 21). -/
inductive ConnStatus where
  | connecting | connected | error | disconnected
deriving DecidableEq

/-- Source `MCPServerStatus` (lines 19-31).  The `id` field is typed `string` in TS
but receives whatever dynamic value was used as the server id, so it is a
`Json` here. -/
structure MCPServerStatus where
  id : Json
  status : ConnStatus
  metrics : MCPServerMetrics
  logs : List MCPServerLog
  connectionTime : Option ℤ
  lastHealthCheck : Option ℤ
  connectionPool : ConnectionPool
deriving DecidableEq

/-- The status installed by the `MCPServerSimulator` constructor
(lines 46-64). -/
def initialStatus (serverId : Json) : MCPServerStatus where
  id := serverId
  status := .disconnected
  metrics :=
    { requestsPerSecond := 0, averageLatency := 0, errorRate := 0
      totalRequests := 0, totalErrors := 0, uptime := 0, lastRequestTime := 0 }
  logs := []
  connectionTime := none
  lastHealthCheck := none
  connectionPool := { active := 0, idle := 0, total := 0 }

/-- The log entry built at lines 214-220 (the generated random id is the
`logId` parameter; `details` is omitted at every call site). -/
def mkLog (logId : String) (now : ℤ) (level : LogLevel) (message : String) :
    MCPServerLog :=
  { id := logId, timestamp := now, level := level, message := message }

/-- Source `addLog` (lines 213-230): build the entry, `unshift` it, then cap the
list at the 100 newest entries. -/
def addLog (st : MCPServerStatus) (logId : String) (now : ℤ)
    (level : LogLevel) (message : String) : MCPServerStatus :=
  let logs := mkLog logId now level message :: st.logs
  { st with logs := if logs.length > 100 then logs.take 100 else logs }

/-- The random draws consumed by one resolved `connect()` call
(lines 67-100).  `failRand` is the draw at line 75, `activeRand` and
`idleRand` the draws at lines 90-91; the delay draw at line 72 does not
affect the resulting state.  `logId1`-`logId3` are the generated ids of the
up-to-three appended log entries. -/
structure ConnectDraws where
  failRand : ℚ
  activeRand : ℚ
  idleRand : ℚ
  logId1 : String
  logId2 : String
  logId3 : String
  now : ℤ

/-- Well-formed draws: every `Math.random()` result lies in `[0, 1)`. -/
def ConnectDraws.WF (d : ConnectDraws) : Prop :=
  0 ≤ d.failRand ∧ d.failRand < 1 ∧ 0 ≤ d.activeRand ∧ d.activeRand < 1 ∧
    0 ≤ d.idleRand ∧ d.idleRand < 1

/-- Source `connect()` (lines 67-100), as the transformation the async method has
applied to the status once its promise resolves. -/
def connectResult (serverConfig : Json) (st : MCPServerStatus)
    (d : ConnectDraws) : MCPServerStatus :=
  let st := { st with status := ConnStatus.connecting }
  let st := addLog st d.logId1 d.now .info
    ("Attempting to connect to " ++ jsToStr (getField serverConfig ("name")))
  if d.failRand < 1/10 then
    let st := { st with status := ConnStatus.error }
    addLog st d.logId2 d.now .error ("Connection failed: Timeout after 3000ms")
  else
    let st := { st with status := ConnStatus.connected,
                        connectionTime := some d.now }
    let st := addLog st d.logId2 d.now .info
      ("Successfully connected to " ++ jsToStr (getField serverConfig ("name")))
    let st := addLog st d.logId3 d.now .debug
      ("Endpoint: " ++ jsToStr (getField serverConfig ("endpoint")))
    let active := (⌊d.activeRand * 5⌋).toNat + 1
    let idle := (⌊d.idleRand * 3⌋).toNat + 1
    { st with connectionPool :=
        { active := active, idle := idle, total := active + idle } }

/-- Source `disconnect()` (lines 102-108): log, stop timers (no status-object
effect), set `disconnected`, clear `connectionTime`, zero the pool. -/
def disconnectResult (serverConfig : Json) (st : MCPServerStatus)
    (logId : String) (now : ℤ) : MCPServerStatus :=
  let st := addLog st logId now .info
    ("Disconnecting from " ++ jsToStr (getField serverConfig ("name")))
  let st := { st with status := ConnStatus.disconnected }
  { st with connectionTime := none,
            connectionPool := { active := 0, idle := 0, total := 0 } }

/-- JS `Number.prototype.toFixed(1)` on a nonnegative number, modelled as
round-half-up to one decimal (the draws that reach it are positive; no
verified claim depends on the rendered digits). -/
def qToFixed1 (q : ℚ) : String :=
  let n := ⌊q * 10 + 1/2⌋
  toString (n / 10) ++ "." ++ toString (n % 10)

/-- Source `performHealthCheck` (lines 116-130).  `latencyRand` is the draw at
line 117, `failRand` the draw at line 121. -/
def performHealthCheckResult (st : MCPServerStatus)
    (latencyRand failRand : ℚ) (logId : String) (now : ℤ) : MCPServerStatus :=
  let latency := latencyRand * 100 + 20
  let st := { st with lastHealthCheck := some now }
  if failRand < 1/20 then
    let st := addLog st logId now .warn
      ("Health check failed - high latency: " ++ qToFixed1 latency ++ "ms")
    { st with metrics :=
        { st.metrics with errorRate := min (st.metrics.errorRate + 1/10) 1 } }
  else
    let st := addLog st logId now .debug
      ("Health check passed - latency: " ++ qToFixed1 latency ++ "ms")
    { st with metrics :=
        { st.metrics with errorRate := max (st.metrics.errorRate - 1/100) 0 } }

/-- Source `updateMetrics` (lines 138-171).  `rpsRand`, `latRand`, `burstRand`,
`errRand` are the draws at lines 142, 143, 146 and 160.  The source mutates
`this.status.metrics` field by field; here the final metrics record is built
in one step with exactly the values the source leaves behind (`errorRate`
is computed from the already-incremented counters, as at lines 165-168).
The error log of line 162 is appended before the `errorRate` assignment in
the source, but `addLog` neither reads nor writes `metrics`, so the
resulting state is the same. -/
def updateMetricsResult (st : MCPServerStatus)
    (rpsRand latRand burstRand errRand : ℚ) (logId : String) (now : ℤ) :
    MCPServerStatus :=
  if st.status ≠ ConnStatus.connected then st
  else
    let baseRps := rpsRand * 10 + 2
    let latency := latRand * 50 + 30
    let isBurst := burstRand < 1/10
    let currentRps := if isBurst then baseRps * 3 else baseRps
    let totalRequests := st.metrics.totalRequests + (⌊currentRps⌋).toNat
    let hasError := errRand < 1/50
    let totalErrors := st.metrics.totalErrors + if hasError then 1 else 0
    let uptime := match st.connectionTime with
      | some t => now - t
      | none => st.metrics.uptime
    let errorRate : ℚ :=
      if totalRequests > 0 then (totalErrors : ℚ) / (totalRequests : ℚ) else 0
    let st := { st with metrics :=
      { requestsPerSecond := currentRps, averageLatency := latency,
        errorRate := errorRate, totalRequests := totalRequests,
        totalErrors := totalErrors, uptime := uptime,
        lastRequestTime := now } }
    if hasError then
      addLog st logId now .error ("Request failed: Internal server error")
    else st

/-- The canned activity messages (lines 177-183). -/
def activities : List (LogLevel × String) :=
  [ (.info, "Processing chat completion request"),
    (.debug, "Loading context from vector database"),
    (.info, "Retrieved 15 relevant documents"),
    (.debug, "Applying RAG processing pipeline"),
    (.info, "Response generated successfully") ]

/-- One firing of the activity-log interval callback (lines 175-188).
`actRand` is the draw at line 176, `pickRand` the draw at line 185. -/
def activityTickResult (st : MCPServerStatus) (actRand pickRand : ℚ)
    (logId : String) (now : ℤ) : MCPServerStatus :=
  if st.status = ConnStatus.connected ∧ actRand < 3/10 then
    let a := activities.getD (⌊pickRand * (activities.length : ℚ)⌋).toNat
      (.info, "")
    addLog st logId now a.1 a.2
  else st

/-- One firing of the connection-pool drift interval callback
(lines 193-208).  `changeRand` is the draw at line 195; `idle1Rand` and
`idle2Rand` are the two draws at line 199. -/
def poolDriftResult (st : MCPServerStatus)
    (changeRand idle1Rand idle2Rand : ℚ) : MCPServerStatus :=
  if st.status = ConnStatus.connected then
    let change : ℤ := ⌊changeRand * 3⌋ - 1
    let active := (max 0 (min 10 ((st.connectionPool.active : ℤ) + change))).toNat
    let idleChange : ℤ := ⌊idle1Rand * 2⌋ - ⌊idle2Rand * 2⌋
    let idle := (max 0 (min 5 ((st.connectionPool.idle : ℤ) + idleChange))).toNat
    { st with connectionPool :=
        { active := active, idle := idle, total := active + idle } }
  else st

/-- Source `testConnection()` (lines 272-285), as the state transformation applied
once its promise resolves; `succRand` is the draw at line 276. -/
def testConnectionResult (st : MCPServerStatus) (succRand : ℚ)
    (logId1 logId2 : String) (now : ℤ) : MCPServerStatus :=
  let st := addLog st logId1 now .info ("Testing connection...")
  if succRand > 1/5 then
    addLog st logId2 now .info ("Connection test successful")
  else
    addLog st logId2 now .error ("Connection test failed: Unable to reach endpoint")

/-- A `Math.random()` result. -/
def randWF (r : ℚ) : Prop := 0 ≤ r ∧ r < 1

/-- One status-mutating operation of `MCPServerSimulator`, together with
the random draws, generated log ids and timestamps it consumes. -/
inductive SimOp where
  | connect (d : ConnectDraws)
  | disconnect (logId : String) (now : ℤ)
  | healthCheck (latencyRand failRand : ℚ) (logId : String) (now : ℤ)
  | metricsTick (rpsRand latRand burstRand errRand : ℚ) (logId : String)
      (now : ℤ)
  | activityTick (actRand pickRand : ℚ) (logId : String) (now : ℤ)
  | poolDrift (changeRand idle1Rand idle2Rand : ℚ)
  | testConn (succRand : ℚ) (logId1 logId2 : String) (now : ℤ)

/-- Well-formed operation: every random draw lies in `[0, 1)`. -/
def SimOp.WF : SimOp → Prop
  | .connect d => d.WF
  | .disconnect _ _ => True
  | .healthCheck lr fr _ _ => randWF lr ∧ randWF fr
  | .metricsTick a b c e _ _ => randWF a ∧ randWF b ∧ randWF c ∧ randWF e
  | .activityTick a p _ _ => randWF a ∧ randWF p
  | .poolDrift a b c => randWF a ∧ randWF b ∧ randWF c
  | .testConn s _ _ _ => randWF s

/-- Apply one operation to a simulator's status. -/
def applyOp (serverConfig : Json) (st : MCPServerStatus) : SimOp → MCPServerStatus
  | .connect d => connectResult serverConfig st d
  | .disconnect lid now => disconnectResult serverConfig st lid now
  | .healthCheck lr fr lid now => performHealthCheckResult st lr fr lid now
  | .metricsTick a b c e lid now => updateMetricsResult st a b c e lid now
  | .activityTick a p lid now => activityTickResult st a p lid now
  | .poolDrift a b c => poolDriftResult st a b c
  | .testConn s l1 l2 now => testConnectionResult st s l1 l2 now

/-- The statuses a simulator constructed with `serverId`/`serverConfig` can
reach under any sequence of operations with well-formed draws.  (This over-
approximates the schedules the timers actually produce — e.g. it allows a
health-check tick in a disconnected state — so every invariant proved over
`Reachable` holds a fortiori of the real timer schedules.) -/
inductive Reachable (serverId serverConfig : Json) : MCPServerStatus → Prop where
  | init : Reachable serverId serverConfig (initialStatus serverId)
  | step {st : MCPServerStatus} {op : SimOp} :
      Reachable serverId serverConfig st → op.WF →
      Reachable serverId serverConfig (applyOp serverConfig st op)

/-- One entry of the pool manager's `simulators` map: an
`MCPServerSimulator` instance, i.e. its constructor arguments plus its
current status.  The map key used by `Map.set`/`Map.get` is `serverId`. -/
structure Simulator where
  serverId : Json
  serverConfig : Json
  status : MCPServerStatus
deriving DecidableEq

/-- The pool manager's `simulators : Map<string, MCPServerSimulator>`
(line 289), in insertion order with unique keys. -/
abbrev PoolState := List Simulator

/-- JS `Map.set` semantics on the insertion-ordered entry list: replace the
value at an existing key in place, otherwise append. -/
def mapSet : PoolState → Simulator → PoolState
  | [], sim => [sim]
  | s :: rest, sim =>
      if s.serverId = sim.serverId then sim :: rest else s :: mapSet rest sim

/-- JS `Map.get` semantics. -/
def mapGet : PoolState → Json → Option Simulator
  | [], _ => none
  | s :: rest, k => if s.serverId = k then some s else mapGet rest k

/-- Source `addServer` (lines 296-303): construct a fresh simulator (initial,
disconnected status) and `Map.set` it under `serverId`.  No method of the
displaced simulator (in particular not `disconnect`) is invoked. -/
def addServer (pool : PoolState) (serverId : Json) (config : Json) : PoolState :=
  mapSet pool
    { serverId := serverId, serverConfig := config,
      status := initialStatus serverId }

/-- Source `getAllStatuses` (lines 318-320). -/
def getAllStatuses (pool : PoolState) : List MCPServerStatus :=
  pool.map (fun s => s.status)

/-- Object-literal field update: a later key overrides an earlier one in
place, a new key is appended. -/
def setKey : List (String × Json) → String → Json → List (String × Json)
  | [], k, v => [(k, v)]
  | (k', v') :: rest, k, v =>
      if k' = k then (k', v) :: rest else (k', v') :: setKey rest k v

/-- Source `exportConfig()` (lines 263-269):
`{...serverConfig, exportedAt: <ISO date>, version: '1.0'}`, as a `Json`
value (`JSON.stringify` composed with the later `JSON.parse` is the
identity here).  `exportedAt` is the `new Date().toISOString()` string.
Spreading a non-object config contributes no fields; every config the
claims exercise is an object. -/
def exportConfigJson (serverConfig : Json) (exportedAt : String) : Json :=
  let fields := match serverConfig with
    | .obj fs => fs
    | _ => []
  .obj (setKey (setKey fields ("exportedAt") (.str exportedAt))
    "version" (.str ("1.0")))

/-- Source `exportAllConfigurations` (lines 372-383), as the `Json` value its
returned string prints.  The `new Date().toISOString()` calls (one per
exported config, one for the envelope) are modelled by one `exportedAt`
string. -/
def exportAllConfigurations (pool : PoolState) (exportedAt : String) : Json :=
  let configs := pool.map (fun s => exportConfigJson s.serverConfig exportedAt)
  .obj [("configurations", .arr configs),
        ("exportedAt", .str exportedAt),
        ("totalServers", .num (configs.length : ℚ)),
        ("version", .str ("1.0"))]

/-- The `{ success, errors }` record returned by `importConfigurations`. -/
structure ImportResult where
  success : ℕ
  errors : List String
deriving DecidableEq

/-- Processing of one entry of an imported configuration array
(lines 346-357): a `null` entry makes the `config.id` access throw, caught
by the per-entry `catch`; otherwise the entry is added when `id`, `name`
and `endpoint` are all truthy and rejected with an index-qualified error
when not. -/
def importArrayStep (acc : PoolState × ℕ × List String) (ic : ℕ × Json) :
    PoolState × ℕ × List String :=
  let (pl, s, errs) := acc
  let (index, config) := ic
  match config with
  | .null =>
      (pl, s, errs ++ ["Configuration " ++ toString (index + 1) ++
        ": TypeError: Cannot read properties of null (reading 'id')"])
  | _ =>
      match getField config ("id"), getField config ("name"),
          getField config ("endpoint") with
      | some idv, some nv, some ev =>
          if jsTruthyV idv && jsTruthyV nv && jsTruthyV ev then
            (addServer pl idv config, s + 1, errs)
          else
            (pl, s, errs ++
              ["Configuration " ++ toString (index + 1) ++
                ": Missing required fields"])
      | _, _, _ =>
          (pl, s, errs ++
            ["Configuration " ++ toString (index + 1) ++
              ": Missing required fields"])

/-- Source `importConfigurations` (lines 339-369).  The argument is the outcome of
`JSON.parse` on the raw payload: `.error e` stands for an input string that
is not valid JSON (with `e` the parser's message, caught at line 366).  A
parsed top-level `null` makes the `configs.id` access at line 358 throw a
`TypeError`, also caught at line 366. -/
def importConfigurations (pool : PoolState) (parsed : Except String Json) :
    PoolState × ImportResult :=
  match parsed with
  | .error e => (pool, ⟨0, ["Invalid JSON: " ++ e]⟩)
  | .ok (.arr configs) =>
      let r := configs.enum.foldl importArrayStep (pool, 0, [])
      (r.1, ⟨r.2.1, r.2.2⟩)
  | .ok .null =>
      (pool, ⟨0,
        ["Invalid JSON: TypeError: Cannot read properties of null (reading 'id')"]⟩)
  | .ok configs =>
      match getField configs ("id") with
      | some idv =>
          if jsTruthyV idv then (addServer pool idv configs, ⟨1, []⟩)
          else (pool, ⟨0, ["Invalid configuration format"]⟩)
      | none => (pool, ⟨0, ["Invalid configuration format"]⟩)

/-- A concrete one-server pool (Scenario A's `addServer('s1', {id:'s1',
name:'Test', endpoint:'ws://x'})`), used as a test fixture. -/
def samplePool : PoolState :=
  addServer [] (Json.str ("s1"))
    (Json.obj [("id", Json.str ("s1")), ("name", Json.str ("Test")),
      ("endpoint", Json.str ("ws://x"))])

/-- Well-formedness of the pool manager's map, maintained by the JS `Map`:
keys are unique, and every held simulator's status carries its own key as
its `id` (the constructor sets `id := serverId` and no operation changes
it). -/
def PoolWF (pool : PoolState) : Prop :=
  (pool.map (fun s => s.serverId)).Nodup ∧
    ∀ s ∈ pool, s.status.id = s.serverId

/-- The conjunction of the spec's state invariants, established for every
reachable status: the pool total is the sum of active and idle; the log
buffer holds at most 100 entries; the error rate lies in `[0, 1]`; the
error counter never exceeds the request counter; and a disconnected status
has no connection time and an all-zero pool. -/
def SimInv (st : MCPServerStatus) : Prop :=
  st.connectionPool.total = st.connectionPool.active + st.connectionPool.idle ∧
  st.logs.length ≤ 100 ∧
  0 ≤ st.metrics.errorRate ∧ st.metrics.errorRate ≤ 1 ∧
  st.metrics.totalErrors ≤ st.metrics.totalRequests ∧
  (st.status = ConnStatus.disconnected →
    st.connectionTime = none ∧
    st.connectionPool = { active := 0, idle := 0, total := 0 })

/-! ### Frame lemmas for `addLog` -/

@[simp] theorem addLog_id (st : MCPServerStatus) (l : String) (n : ℤ)
    (v : LogLevel) (m : String) : (addLog st l n v m).id = st.id := rfl

@[simp] theorem addLog_status (st : MCPServerStatus) (l : String) (n : ℤ)
    (v : LogLevel) (m : String) : (addLog st l n v m).status = st.status := rfl

@[simp] theorem addLog_metrics (st : MCPServerStatus) (l : String) (n : ℤ)
    (v : LogLevel) (m : String) : (addLog st l n v m).metrics = st.metrics := rfl

@[simp] theorem addLog_connectionTime (st : MCPServerStatus) (l : String)
    (n : ℤ) (v : LogLevel) (m : String) :
    (addLog st l n v m).connectionTime = st.connectionTime := rfl

@[simp] theorem addLog_lastHealthCheck (st : MCPServerStatus) (l : String)
    (n : ℤ) (v : LogLevel) (m : String) :
    (addLog st l n v m).lastHealthCheck = st.lastHealthCheck := rfl

@[simp] theorem addLog_connectionPool (st : MCPServerStatus) (l : String)
    (n : ℤ) (v : LogLevel) (m : String) :
    (addLog st l n v m).connectionPool = st.connectionPool := rfl

/-- Appending prepends the new entry and keeps the 100 newest. -/
theorem addLog_logs (st : MCPServerStatus) (l : String) (n : ℤ)
    (v : LogLevel) (m : String) :
    (addLog st l n v m).logs = (mkLog l n v m :: st.logs).take 100 := by
  simp only [addLog]
  split
  · rfl
  · next h =>
    rw [List.take_of_length_le]
    omega

/-- Appending keeps the log buffer within the 100-entry cap. -/
theorem addLog_length_le (st : MCPServerStatus) (l : String) (n : ℤ)
    (v : LogLevel) (m : String) :
    (addLog st l n v m).logs.length ≤ 100 := by
  rw [addLog_logs]
  simp [List.length_take]

theorem simInv_initial (serverId : Json) : SimInv (initialStatus serverId) := by
  refine ⟨rfl, by simp [initialStatus], le_refl 0, zero_le_one, le_refl 0, ?_⟩
  exact fun _ => ⟨rfl, rfl⟩

theorem simInv_connect (cfg : Json) (st : MCPServerStatus) (d : ConnectDraws)
    (h : SimInv st) : SimInv (connectResult cfg st d) := by
  obtain ⟨hpool, hlogs, her0, her1, herr, hdis⟩ := h
  simp only [connectResult]
  split
  · exact ⟨by simpa using hpool, by simp [addLog_length_le],
      by simpa using her0, by simpa using her1, by simpa using herr,
      by simp⟩
  · refine ⟨by simp, ?_, by simpa using her0, by simpa using her1,
      by simpa using herr, by simp⟩
    simp [addLog_length_le]

theorem simInv_disconnect (cfg : Json) (st : MCPServerStatus) (lid : String)
    (now : ℤ) (h : SimInv st) : SimInv (disconnectResult cfg st lid now) := by
  obtain ⟨hpool, hlogs, her0, her1, herr, hdis⟩ := h
  refine ⟨by simp [disconnectResult], ?_, by simpa [disconnectResult] using her0,
    by simpa [disconnectResult] using her1,
    by simpa [disconnectResult] using herr, by simp [disconnectResult]⟩
  simp [disconnectResult, addLog_length_le]

theorem simInv_healthCheck (st : MCPServerStatus) (lr fr : ℚ) (lid : String)
    (now : ℤ) (h : SimInv st) :
    SimInv (performHealthCheckResult st lr fr lid now) := by
  obtain ⟨hpool, hlogs, her0, her1, herr, hdis⟩ := h
  simp only [performHealthCheckResult]
  split
  · refine ⟨by simpa using hpool, by simp [addLog_length_le], ?_, ?_,
      by simpa using herr, ?_⟩
    · simp only [addLog_metrics]
      exact le_min (by linarith) zero_le_one
    · simp only [addLog_metrics]
      exact min_le_right _ _
    · intro hs
      simp only [addLog_status] at hs
      simpa using hdis hs
  · refine ⟨by simpa using hpool, by simp [addLog_length_le], ?_, ?_,
      by simpa using herr, ?_⟩
    · simp only [addLog_metrics]
      exact le_max_right _ _
    · simp only [addLog_metrics]
      exact max_le (by linarith) zero_le_one
    · intro hs
      simp only [addLog_status] at hs
      simpa using hdis hs

/-- The recomputed ratio `totalErrors / totalRequests` (0 when no request
has been counted) lies in `[0, 1]` whenever errors do not outnumber
requests. -/
theorem errorRate_bounds (te tr : ℕ) (h : te ≤ tr) :
    (0 : ℚ) ≤ (if tr > 0 then ((te : ℕ) : ℚ) / ((tr : ℕ) : ℚ) else 0) ∧
      (if tr > 0 then ((te : ℕ) : ℚ) / ((tr : ℕ) : ℚ) else 0) ≤ 1 := by
  constructor
  · split
    · positivity
    · exact le_refl 0
  · split
    · next hpos =>
      rw [div_le_one (by exact_mod_cast hpos)]
      exact_mod_cast h
    · exact zero_le_one

theorem simInv_metricsTick (st : MCPServerStatus) (a b c e : ℚ)
    (lid : String) (now : ℤ) (ha : 0 ≤ a) (h : SimInv st) :
    SimInv (updateMetricsResult st a b c e lid now) := by
  obtain ⟨hpool, hlogs, her0, her1, herr, hdis⟩ := h
  rw [updateMetricsResult]
  split
  · exact ⟨hpool, hlogs, her0, her1, herr, hdis⟩
  · next hconn =>
    simp only [ne_eq, not_not] at hconn
    have hfloor : 2 ≤ (⌊if c < 1/10 then (a * 10 + 2) * 3 else a * 10 + 2⌋).toNat := by
      have h2 : (2 : ℚ) ≤ (if c < 1/10 then (a * 10 + 2) * 3 else a * 10 + 2) := by
        split <;> nlinarith
      have := Int.le_floor.mpr (by exact_mod_cast h2 :
        ((2 : ℤ) : ℚ) ≤ (if c < 1/10 then (a * 10 + 2) * 3 else a * 10 + 2))
      omega
    have hcount : st.metrics.totalErrors + (if e < 1/50 then 1 else 0) ≤
        st.metrics.totalRequests +
          (⌊if c < 1/10 then (a * 10 + 2) * 3 else a * 10 + 2⌋).toNat := by
      split <;> omega
    have hbounds := errorRate_bounds _ _ hcount
    cases hct : st.connectionTime with
    | none =>
      by_cases he : e < (1 : ℚ)/50
      · simp only [if_pos he] at hcount hbounds ⊢
        exact ⟨by simpa using hpool, by simp [addLog_length_le],
          by simpa using hbounds.1, by simpa using hbounds.2,
          by simpa using hcount, by simp [hconn]⟩
      · simp only [if_neg he] at hcount hbounds ⊢
        exact ⟨by simpa using hpool, by simpa using hlogs,
          by simpa using hbounds.1, by simpa using hbounds.2,
          by simpa using hcount, by simp [hconn]⟩
    | some t =>
      by_cases he : e < (1 : ℚ)/50
      · simp only [if_pos he] at hcount hbounds ⊢
        exact ⟨by simpa using hpool, by simp [addLog_length_le],
          by simpa using hbounds.1, by simpa using hbounds.2,
          by simpa using hcount, by simp [hconn]⟩
      · simp only [if_neg he] at hcount hbounds ⊢
        exact ⟨by simpa using hpool, by simpa using hlogs,
          by simpa using hbounds.1, by simpa using hbounds.2,
          by simpa using hcount, by simp [hconn]⟩

theorem simInv_activityTick (st : MCPServerStatus) (ar pr : ℚ)
    (lid : String) (now : ℤ) (h : SimInv st) :
    SimInv (activityTickResult st ar pr lid now) := by
  obtain ⟨hpool, hlogs, her0, her1, herr, hdis⟩ := h
  rw [activityTickResult]
  split
  · next hcond =>
    exact ⟨by simpa using hpool, by simp [addLog_length_le],
      by simpa using her0, by simpa using her1, by simpa using herr,
      by simp [hcond.1]⟩
  · exact ⟨hpool, hlogs, her0, her1, herr, hdis⟩

theorem simInv_poolDrift (st : MCPServerStatus) (cr i1 i2 : ℚ)
    (h : SimInv st) : SimInv (poolDriftResult st cr i1 i2) := by
  obtain ⟨hpool, hlogs, her0, her1, herr, hdis⟩ := h
  rw [poolDriftResult]
  split
  · next hconn =>
    exact ⟨rfl, hlogs, her0, her1, herr, by simp [hconn]⟩
  · exact ⟨hpool, hlogs, her0, her1, herr, hdis⟩

theorem simInv_testConn (st : MCPServerStatus) (sr : ℚ)
    (l1 l2 : String) (now : ℤ) (h : SimInv st) :
    SimInv (testConnectionResult st sr l1 l2 now) := by
  obtain ⟨hpool, hlogs, her0, her1, herr, hdis⟩ := h
  rw [testConnectionResult]
  split <;>
    exact ⟨by simpa using hpool, by simp [addLog_length_le],
      by simpa using her0, by simpa using her1, by simpa using herr,
      by simpa using hdis⟩

/-- Every operation with well-formed draws preserves the invariant. -/
theorem simInv_applyOp (cfg : Json) (st : MCPServerStatus) (op : SimOp)
    (hwf : op.WF) (h : SimInv st) : SimInv (applyOp cfg st op) := by
  cases op with
  | connect d => exact simInv_connect cfg st d h
  | disconnect lid now => exact simInv_disconnect cfg st lid now h
  | healthCheck lr fr lid now => exact simInv_healthCheck st lr fr lid now h
  | metricsTick a b c e lid now => exact simInv_metricsTick st a b c e lid now hwf.1.1 h
  | activityTick a p lid now => exact simInv_activityTick st a p lid now h
  | poolDrift a b c => exact simInv_poolDrift st a b c h
  | testConn s l1 l2 now => exact simInv_testConn st s l1 l2 now h

/-- Every reachable status satisfies the invariant. -/
theorem simInv_reachable {serverId serverConfig : Json}
    {st : MCPServerStatus} (h : Reachable serverId serverConfig st) :
    SimInv st := by
  induction h with
  | init => exact simInv_initial serverId
  | step _ hwf ih => exact simInv_applyOp _ _ _ hwf ih

/-! ### Lemmas about the manager's map operations -/

theorem mapGet_mapSet_self (pool : PoolState) (sim : Simulator) :
    mapGet (mapSet pool sim) sim.serverId = some sim := by
  induction pool with
  | nil => simp [mapSet, mapGet]
  | cons s rest ih =>
    rw [mapSet]
    split
    · simp [mapGet]
    · next hne => simp [mapGet, hne, ih]

theorem mapGet_mapSet_ne (pool : PoolState) (sim : Simulator) (k : Json)
    (hk : k ≠ sim.serverId) :
    mapGet (mapSet pool sim) k = mapGet pool k := by
  induction pool with
  | nil => simp [mapSet, mapGet, Ne.symm hk]
  | cons s rest ih =>
    rw [mapSet]
    split
    · next hsame =>
      have hsk : ¬ s.serverId = k := by rw [hsame]; exact Ne.symm hk
      simp [mapGet, Ne.symm hk, hsk]
    · by_cases hsk : s.serverId = k <;> simp [mapGet, hsk, ih]

theorem mapSet_keys_of_mem (pool : PoolState) (sim : Simulator)
    (hmem : (mapGet pool sim.serverId).isSome) :
    (mapSet pool sim).map (fun s => s.serverId) =
      pool.map (fun s => s.serverId) := by
  induction pool with
  | nil => simp [mapGet] at hmem
  | cons s rest ih =>
    rw [mapSet]
    split
    · next hsame => simp [hsame]
    · next hne =>
      rw [mapGet] at hmem
      simp only [hne, if_false] at hmem
      simp [ih hmem]

theorem mem_keys_of_mapGet_isSome (pool : PoolState) (k : Json)
    (h : (mapGet pool k).isSome) : k ∈ pool.map (fun s => s.serverId) := by
  induction pool with
  | nil => simp [mapGet] at h
  | cons s rest ih =>
    rw [mapGet] at h
    by_cases hsk : s.serverId = k
    · simp [hsk]
    · simp only [hsk, if_false] at h
      simp [ih h]

/-- In a pool whose statuses carry their keys as ids and whose keys are
unique, exactly one status has a given held key as its id. -/
theorem countP_statuses_eq_one (pool : PoolState) (k : Json)
    (hids : ∀ s ∈ pool, s.status.id = s.serverId)
    (hnodup : (pool.map (fun s => s.serverId)).Nodup)
    (hmem : k ∈ pool.map (fun s => s.serverId)) :
    (getAllStatuses pool).countP (fun st => decide (st.id = k)) = 1 := by
  induction pool with
  | nil => simp at hmem
  | cons s rest ih =>
    rw [List.map_cons, List.nodup_cons] at hnodup
    rw [List.map_cons, List.mem_cons] at hmem
    have hsid : s.status.id = s.serverId := hids s (by simp)
    have hrest : ∀ t ∈ rest, t.status.id = t.serverId :=
      fun t ht => hids t (by simp [ht])
    rw [getAllStatuses, List.map_cons, List.countP_cons]
    rcases hmem with rfl | hmem
    · have hzero :
          List.countP (fun st => decide (st.id = s.serverId))
            (rest.map (fun t => t.status)) = 0 := by
        rw [List.countP_eq_zero]
        intro st hst
        rw [List.mem_map] at hst
        obtain ⟨t, ht, rfl⟩ := hst
        simp only [hrest t ht, decide_eq_true_eq]
        intro hEq
        exact hnodup.1 (by rw [← hEq]; exact List.mem_map_of_mem _ ht)
      rw [hzero, hsid]
      simp
    · have hne : ¬ s.status.id = k := by
        rw [hsid]
        intro hEq
        exact hnodup.1 (by rw [hEq]; exact hmem)
      have hk := ih hrest hnodup.2 hmem
      rw [getAllStatuses] at hk
      rw [hk]
      simp [hne]

/-- Connecting never touches the accumulated metrics. -/
theorem connectResult_metrics (cfg : Json) (st : MCPServerStatus)
    (d : ConnectDraws) : (connectResult cfg st d).metrics = st.metrics := by
  rw [connectResult]
  split <;> simp

/-! ### Claims about the simulator state machine -/

/-- C4: for every ServerStatus reachable by any sequence of operations
(construction, connect, disconnect, health check, metrics tick, activity
tick, connection-pool drift, test connection), `connectionPool.total`
equals `connectionPool.active + connectionPool.idle`. -/
theorem pool_total_eq_active_add_idle (serverId serverConfig : Json)
    (st : MCPServerStatus) (h : Reachable serverId serverConfig st) :
    st.connectionPool.total =
      st.connectionPool.active + st.connectionPool.idle :=
  (simInv_reachable h).1

/-- Witness for `pool_total_eq_active_add_idle` at a concrete state reached
by a successful `connect()`. -/
theorem pool_total_eq_active_add_idle_witness :
    (applyOp (Json.obj []) (initialStatus (Json.str ("s1")))
        (SimOp.connect ⟨1/2, 1/2, 1/2, "a", "b", "c", 0⟩)).connectionPool.total =
      (applyOp (Json.obj []) (initialStatus (Json.str ("s1")))
        (SimOp.connect ⟨1/2, 1/2, 1/2, "a", "b", "c", 0⟩)).connectionPool.active +
      (applyOp (Json.obj []) (initialStatus (Json.str ("s1")))
        (SimOp.connect ⟨1/2, 1/2, 1/2, "a", "b", "c", 0⟩)).connectionPool.idle :=
  pool_total_eq_active_add_idle (Json.str ("s1")) (Json.obj []) _
    (Reachable.step Reachable.init (by norm_num [SimOp.WF, ConnectDraws.WF]))

/-- C6: for every reachable ServerStatus, `metrics.errorRate` lies in
`[0, 1]`, whatever interleaving of health-check nudges (+0.1 on failure,
-0.01 on success) and metrics-tick recomputations has been applied. -/
theorem errorRate_within_unit (serverId serverConfig : Json)
    (st : MCPServerStatus) (h : Reachable serverId serverConfig st) :
    0 ≤ st.metrics.errorRate ∧ st.metrics.errorRate ≤ 1 :=
  ⟨(simInv_reachable h).2.2.1, (simInv_reachable h).2.2.2.1⟩

/-- Witness for `errorRate_within_unit` at a concrete state reached by a
failing health check (which nudges the rate up by 0.1). -/
theorem errorRate_within_unit_witness :
    0 ≤ (applyOp (Json.obj []) (initialStatus (Json.str ("s1")))
        (SimOp.healthCheck 0 0 ("h") 5)).metrics.errorRate ∧
      (applyOp (Json.obj []) (initialStatus (Json.str ("s1")))
        (SimOp.healthCheck 0 0 ("h") 5)).metrics.errorRate ≤ 1 :=
  errorRate_within_unit (Json.str ("s1")) (Json.obj []) _
    (Reachable.step Reachable.init (by norm_num [SimOp.WF, randWF]))

/-- C5: every reachable ServerStatus holds at most 100 log entries; and
appending to a status already holding exactly 100 prepends the new entry,
drops the oldest (the last of the newest-first list), and keeps the length
at 100. -/
theorem logs_capped_and_evict_oldest (serverId serverConfig : Json)
    (st : MCPServerStatus) (h : Reachable serverId serverConfig st)
    (st2 : MCPServerStatus) (h100 : st2.logs.length = 100)
    (lid : String) (now : ℤ) (lv : LogLevel) (msg : String) :
    st.logs.length ≤ 100 ∧
      (addLog st2 lid now lv msg).logs =
        mkLog lid now lv msg :: st2.logs.dropLast ∧
      (addLog st2 lid now lv msg).logs.length = 100 := by
  refine ⟨(simInv_reachable h).2.1, ?_, ?_⟩
  · rw [addLog_logs, List.dropLast_eq_take, h100]
    rw [show (100 : ℕ) = 99 + 1 from rfl, List.take_succ_cons]
  · rw [addLog_logs, List.length_take]
    simp [h100]

/-- Witness for `logs_capped_and_evict_oldest` at the initial state and a
status holding exactly 100 entries. -/
theorem logs_capped_and_evict_oldest_witness :
    (initialStatus (Json.str ("s1"))).logs.length ≤ 100 ∧
      (addLog { initialStatus (Json.str ("w")) with
          logs := List.replicate 100 (mkLog ("x") 0 LogLevel.info ("m")) }
        "y" 1 LogLevel.warn ("n")).logs =
        mkLog ("y") 1 LogLevel.warn ("n") ::
          (List.replicate 100 (mkLog ("x") 0 LogLevel.info ("m"))).dropLast ∧
      (addLog { initialStatus (Json.str ("w")) with
          logs := List.replicate 100 (mkLog ("x") 0 LogLevel.info ("m")) }
        "y" 1 LogLevel.warn ("n")).logs.length = 100 :=
  logs_capped_and_evict_oldest (Json.str ("s1")) (Json.obj []) _
    Reachable.init _ (by simp) "y" 1 LogLevel.warn ("n")

/-- C3: once `connect()` resolves, the status is `connected` or `error`,
never `connecting`; and on the `connected` outcome `connectionTime` is the
current time and the pool is initialized with `active ∈ [1,5]`,
`idle ∈ [1,3]` and `total = active + idle`. -/
theorem connect_resolves_final_status (serverConfig : Json)
    (st : MCPServerStatus) (d : ConnectDraws) (hwf : d.WF) :
    ((connectResult serverConfig st d).status = ConnStatus.connected ∨
      (connectResult serverConfig st d).status = ConnStatus.error) ∧
    (connectResult serverConfig st d).status ≠ ConnStatus.connecting ∧
    ((connectResult serverConfig st d).status = ConnStatus.connected →
      (connectResult serverConfig st d).connectionTime = some d.now ∧
      1 ≤ (connectResult serverConfig st d).connectionPool.active ∧
      (connectResult serverConfig st d).connectionPool.active ≤ 5 ∧
      1 ≤ (connectResult serverConfig st d).connectionPool.idle ∧
      (connectResult serverConfig st d).connectionPool.idle ≤ 3 ∧
      (connectResult serverConfig st d).connectionPool.total =
        (connectResult serverConfig st d).connectionPool.active +
          (connectResult serverConfig st d).connectionPool.idle) := by
  obtain ⟨hf0, hf1, ha0, ha1, hi0, hi1⟩ := hwf
  have hafl : 0 ≤ ⌊d.activeRand * 5⌋ := Int.floor_nonneg.mpr (by positivity)
  have hafu : ⌊d.activeRand * 5⌋ < 5 := Int.floor_lt.mpr (by push_cast; nlinarith)
  have hifl : 0 ≤ ⌊d.idleRand * 3⌋ := Int.floor_nonneg.mpr (by positivity)
  have hifu : ⌊d.idleRand * 3⌋ < 3 := Int.floor_lt.mpr (by push_cast; nlinarith)
  rw [connectResult]
  split
  · exact ⟨Or.inr (by simp), by simp, fun hc => absurd hc (by simp)⟩
  · refine ⟨Or.inl (by simp), by simp,
      fun _ => ⟨by simp, ?_, ?_, ?_, ?_, by simp⟩⟩
    · show 1 ≤ (⌊d.activeRand * 5⌋).toNat + 1
      omega
    · show (⌊d.activeRand * 5⌋).toNat + 1 ≤ 5
      omega
    · show 1 ≤ (⌊d.idleRand * 3⌋).toNat + 1
      omega
    · show (⌊d.idleRand * 3⌋).toNat + 1 ≤ 3
      omega

/-- Witness for `connect_resolves_final_status` at concrete draws. -/
theorem connect_resolves_final_status_witness :
    (connectResult (Json.obj [("name", Json.str ("T"))])
        (initialStatus (Json.str ("s1")))
        ⟨1/2, 1/2, 1/2, "a", "b", "c", 7⟩).status = ConnStatus.connected ∨
    (connectResult (Json.obj [("name", Json.str ("T"))])
        (initialStatus (Json.str ("s1")))
        ⟨1/2, 1/2, 1/2, "a", "b", "c", 7⟩).status = ConnStatus.error :=
  (connect_resolves_final_status _ _ _ (by norm_num [ConnectDraws.WF])).1

/-- C7: `disconnect()` on an already-disconnected simulator leaves every
status field unchanged except for the one log entry it appends (under the
100-entry cap; when fewer than 100 entries are held it is a pure
prepend). -/
theorem disconnect_on_disconnected_only_logs (serverId serverConfig : Json)
    (st : MCPServerStatus) (h : Reachable serverId serverConfig st)
    (hdis : st.status = ConnStatus.disconnected) (lid : String) (now : ℤ) :
    (disconnectResult serverConfig st lid now).status = st.status ∧
    (disconnectResult serverConfig st lid now).metrics = st.metrics ∧
    (disconnectResult serverConfig st lid now).connectionTime =
      st.connectionTime ∧
    (disconnectResult serverConfig st lid now).connectionPool =
      st.connectionPool ∧
    (disconnectResult serverConfig st lid now).lastHealthCheck =
      st.lastHealthCheck ∧
    (disconnectResult serverConfig st lid now).id = st.id ∧
    (disconnectResult serverConfig st lid now).logs =
      (mkLog lid now LogLevel.info
        ("Disconnecting from " ++ jsToStr (getField serverConfig ("name"))) ::
          st.logs).take 100 ∧
    (st.logs.length < 100 →
      (disconnectResult serverConfig st lid now).logs =
        mkLog lid now LogLevel.info
          ("Disconnecting from " ++ jsToStr (getField serverConfig ("name"))) ::
            st.logs) := by
  obtain ⟨-, hlogs, -, -, -, hd⟩ := simInv_reachable h
  obtain ⟨hct, hpool⟩ := hd hdis
  refine ⟨by simp [disconnectResult, hdis], by simp [disconnectResult],
    by simp [disconnectResult, hct], by simp [disconnectResult, hpool],
    by simp [disconnectResult], by simp [disconnectResult],
    by simp [disconnectResult, addLog_logs], ?_⟩
  intro hlen
  simp only [disconnectResult, addLog_logs]
  exact List.take_of_length_le (by simp; omega)

/-- Witness for `disconnect_on_disconnected_only_logs` at the freshly
constructed (disconnected) state. -/
theorem disconnect_on_disconnected_only_logs_witness :
    (disconnectResult (Json.obj []) (initialStatus (Json.str ("s1"))) "d" 0).metrics =
      (initialStatus (Json.str ("s1"))).metrics :=
  (disconnect_on_disconnected_only_logs (Json.str ("s1")) (Json.obj []) _
    Reachable.init rfl ("d") 0).2.1

/-- C9: `disconnect()` from any state leaves every metrics field and
`lastHealthCheck` (and `id`) unchanged — the accumulated counters persist,
also across a subsequent reconnect — while it sets `disconnected`, clears
`connectionTime`, zeroes the pool, and appends exactly one log entry
(under the 100-entry cap). -/
theorem disconnect_frame (serverConfig : Json) (st : MCPServerStatus)
    (lid : String) (now : ℤ) (d : ConnectDraws) :
    (disconnectResult serverConfig st lid now).metrics = st.metrics ∧
    (disconnectResult serverConfig st lid now).lastHealthCheck =
      st.lastHealthCheck ∧
    (disconnectResult serverConfig st lid now).id = st.id ∧
    (disconnectResult serverConfig st lid now).status =
      ConnStatus.disconnected ∧
    (disconnectResult serverConfig st lid now).connectionTime = none ∧
    (disconnectResult serverConfig st lid now).connectionPool =
      { active := 0, idle := 0, total := 0 } ∧
    (disconnectResult serverConfig st lid now).logs =
      (mkLog lid now LogLevel.info
        ("Disconnecting from " ++ jsToStr (getField serverConfig ("name"))) ::
          st.logs).take 100 ∧
    (connectResult serverConfig (disconnectResult serverConfig st lid now)
        d).metrics = st.metrics := by
  refine ⟨by simp [disconnectResult], by simp [disconnectResult],
    by simp [disconnectResult], by simp [disconnectResult],
    by simp [disconnectResult], by simp [disconnectResult],
    by simp [disconnectResult, addLog_logs], ?_⟩
  rw [connectResult_metrics]
  simp [disconnectResult]

/-- An entry of `mapSet pool sim` is the new simulator or an entry of the
original pool. -/
theorem mem_mapSet (pool : PoolState) (sim s : Simulator)
    (h : s ∈ mapSet pool sim) : s = sim ∨ s ∈ pool := by
  induction pool with
  | nil => simpa [mapSet] using h
  | cons a rest ih =>
    rw [mapSet] at h
    split at h
    · rcases List.mem_cons.mp h with h | h
      · exact Or.inl h
      · exact Or.inr (List.mem_cons_of_mem _ h)
    · rcases List.mem_cons.mp h with h | h
      · exact Or.inr (by simp [h])
      · rcases ih h with h | h
        · exact Or.inl h
        · exact Or.inr (List.mem_cons_of_mem _ h)

/-! ### Claims about the pool manager's import and export -/

/-- C8: for every payload whose JSON parse fails, `importConfigurations`
does not propagate the exception; it returns success 0 and exactly one
error, which is "Invalid JSON: " followed by the parser's message, and the
pool is unchanged. -/
theorem import_invalid_json (pool : PoolState) (e : String) :
    importConfigurations pool (Except.error e) =
      (pool, ⟨0, ["Invalid JSON: " ++ e]⟩) ∧
    (importConfigurations pool (Except.error e)).2.errors.length = 1 ∧
    ∃ msg, (importConfigurations pool (Except.error e)).2.errors =
      ["Invalid JSON: " ++ msg] :=
  ⟨rfl, rfl, ⟨e, rfl⟩⟩

/-- C2 counterexample: importing the single object `{"id":"a"}` (missing
name and endpoint) is accepted by the code — success 1, no errors, and the
server is added — not rejected with "Configuration 1: Missing required
fields" as claimed. -/
theorem import_single_missing_fields_cex :
    importConfigurations [] (Except.ok (Json.obj [("id", Json.str ("a"))])) =
      ([⟨Json.str ("a"), Json.obj [("id", Json.str ("a"))],
        initialStatus (Json.str ("a"))⟩], ⟨1, []⟩) ∧
    ¬ (importConfigurations [] (Except.ok (Json.obj [("id", Json.str ("a"))])) =
        ([], ⟨0, ["Configuration 1: Missing required fields"]⟩)) := by
  refine ⟨rfl, ?_⟩
  intro hcontra
  have h1 : (importConfigurations []
      (Except.ok (Json.obj [("id", Json.str ("a"))]))).2.success = 1 := rfl
  rw [hcontra] at h1
  exact absurd h1 (by decide)

/-- C2 amended: a single-object payload is checked only for a truthy `id`
(name and endpoint are not validated), so `{"id":"a"}` imports with
success 1, no errors, and the server added under id "a"; the
index-qualified "Missing required fields" rejection applies only to
entries of an array payload, e.g. `[{"id":"a"}]`. -/
theorem import_single_checks_only_id (pool : PoolState) :
    importConfigurations pool (Except.ok (Json.obj [("id", Json.str ("a"))])) =
      (addServer pool (Json.str ("a")) (Json.obj [("id", Json.str ("a"))]),
        ⟨1, []⟩) ∧
    importConfigurations pool
        (Except.ok (Json.arr [Json.obj [("id", Json.str ("a"))]])) =
      (pool, ⟨0, ["Configuration 1: Missing required fields"]⟩) :=
  ⟨rfl, rfl⟩

/-- C1 counterexample: with one held server, importing the exact export
yields zero successes and the single top-level error "Invalid
configuration format" — not success = totalServers with no errors — since
the export envelope `{configurations, exportedAt, totalServers, version}`
has no `id` field and import does not unwrap it. -/
theorem export_import_roundtrip_cex :
    (importConfigurations samplePool
        (Except.ok (exportAllConfigurations samplePool
          ("2024-01-01T00:00:00.000Z")))).2 =
      ⟨0, ["Invalid configuration format"]⟩ ∧
    samplePool.length = 1 ∧
    (importConfigurations samplePool
        (Except.ok (exportAllConfigurations samplePool
          ("2024-01-01T00:00:00.000Z")))).1 = samplePool ∧
    ¬ ((importConfigurations samplePool
          (Except.ok (exportAllConfigurations samplePool
            ("2024-01-01T00:00:00.000Z")))).2.success = samplePool.length ∧
        (importConfigurations samplePool
          (Except.ok (exportAllConfigurations samplePool
            ("2024-01-01T00:00:00.000Z")))).2.errors = []) := by
  refine ⟨rfl, rfl, rfl, ?_⟩
  intro hcontra
  exact absurd hcontra.1 (by decide)

/-- C1 amended: for a pool holding at least one server, importing the
string returned by `exportAllConfigurations` yields zero successes and the
single error "Invalid configuration format", and leaves the pool's
membership unchanged (the envelope is not a config object or array). -/
theorem export_import_roundtrip_amended (pool : PoolState) (t : String)
    (_hne : pool ≠ []) :
    importConfigurations pool
        (Except.ok (exportAllConfigurations pool t)) =
      (pool, ⟨0, ["Invalid configuration format"]⟩) := rfl

/-- Witness for `export_import_roundtrip_amended` on the concrete
one-server pool. -/
theorem export_import_roundtrip_amended_witness :
    importConfigurations samplePool
        (Except.ok (exportAllConfigurations samplePool
          ("2024-01-01T00:00:00.000Z"))) =
      (samplePool, ⟨0, ["Invalid configuration format"]⟩) :=
  export_import_roundtrip_amended samplePool ("2024-01-01T00:00:00.000Z")
    (by simp [samplePool, addServer, mapSet])

/-- C10: `addServer` with an id already present silently replaces the old
simulator in place: `getServer` (the map lookup) then returns the fresh
disconnected simulator, the key sequence is unchanged so `getAllStatuses`
has exactly one entry with that id, every other entry is untouched, and —
as in the source, whose `addServer` performs a bare `Map.set` — no
`disconnect` is applied to the displaced simulator; importing a single
config object whose truthy id is already in the pool performs exactly the
same replacement. -/
theorem addServer_replaces_existing (pool : PoolState) (hwf : PoolWF pool)
    (k cfg : Json) (hmem : (mapGet pool k).isSome) :
    mapGet (addServer pool k cfg) k =
      some ⟨k, cfg, initialStatus k⟩ ∧
    (addServer pool k cfg).map (fun s => s.serverId) =
      pool.map (fun s => s.serverId) ∧
    (getAllStatuses (addServer pool k cfg)).countP
      (fun stat => decide (stat.id = k)) = 1 ∧
    (∀ k2, k2 ≠ k → mapGet (addServer pool k cfg) k2 = mapGet pool k2) ∧
    (getField cfg ("id") = some k → jsTruthyV k = true →
      importConfigurations pool (Except.ok cfg) =
        (addServer pool k cfg, ⟨1, []⟩)) := by
  have hkeys : (addServer pool k cfg).map (fun s => s.serverId) =
      pool.map (fun s => s.serverId) :=
    mapSet_keys_of_mem pool ⟨k, cfg, initialStatus k⟩ hmem
  refine ⟨mapGet_mapSet_self pool _, hkeys, ?_, ?_, ?_⟩
  · apply countP_statuses_eq_one
    · intro s hs
      rcases mem_mapSet pool _ s hs with rfl | hs
      · rfl
      · exact hwf.2 s hs
    · rw [hkeys]
      exact hwf.1
    · rw [hkeys]
      exact mem_keys_of_mapGet_isSome pool k hmem
  · intro k2 hk2
    exact mapGet_mapSet_ne pool _ k2 hk2
  · intro hid htr
    cases cfg with
    | null => simp [getField] at hid
    | bool b => simp [getField] at hid
    | num q => simp [getField] at hid
    | str s2 => simp [getField] at hid
    | arr xs => simp [getField] at hid
    | obj fs =>
      simp only [importConfigurations, hid, htr]
      simp [addServer]

/-- Witness for `addServer_replaces_existing`: re-adding id "s1" to the
one-server fixture pool replaces the entry with a fresh simulator. -/
theorem addServer_replaces_existing_witness :
    mapGet (addServer samplePool (Json.str ("s1"))
        (Json.obj [("id", Json.str ("s1")), ("name", Json.str ("New"))]))
      (Json.str ("s1")) =
      some ⟨Json.str ("s1"),
        Json.obj [("id", Json.str ("s1")), ("name", Json.str ("New"))],
        initialStatus (Json.str ("s1"))⟩ :=
  (addServer_replaces_existing samplePool ⟨by decide, by decide⟩
    (Json.str ("s1")) (Json.obj [("id", Json.str ("s1")), ("name", Json.str ("New"))])
    (by decide)).1
